import Mathlib

/-!
Shallow embedding of the mukit-bot note-aggregation engine
(src/app/handlers.py, src/app/services.py, src/app/models.py,
src/app/config.py) and proofs about its merge, matching and
reconciliation behaviour.

Strings are modelled as lists of characters.  The Python string
primitives used by the code (str.lower, str.isupper, str.strip,
the regex character classes \d and \s) are modelled character-wise
on the character ranges actually exercised by the program: ASCII
and the Cyrillic alphabet used by the configured category labels.
-/

namespace MukitBot

/-- Python whitespace for str.strip and the regex class \s
(ASCII subset: space, tab, newline, carriage return, vertical tab,
form feed). -/
def pyIsSpace (c : Char) : Bool :=
  c == ' ' || c == '\t' || c == '\n' || c == '\r' || c == '\x0b' || c == '\x0c'

/-- Character-wise model of Python str.lower on ASCII letters and the
Russian Cyrillic letters appearing in the configuration. -/
def pyLowerChar (c : Char) : Char :=
  if 'A' ≤ c ∧ c ≤ 'Z' then Char.ofNat (c.toNat + 32)
  else if 'А' ≤ c ∧ c ≤ 'Я' then Char.ofNat (c.toNat + 32)
  else if c = 'Ё' then 'ё'
  else c

/-- Model of Python str.isupper for a single character (ASCII and
Russian Cyrillic uppercase). -/
def pyIsUpper (c : Char) : Bool :=
  decide (('A' ≤ c ∧ c ≤ 'Z') ∨ ('А' ≤ c ∧ c ≤ 'Я') ∨ c = 'Ё')

/-- str.lower applied to a whole string. -/
def pyLower (s : List Char) : List Char := s.map pyLowerChar

/-- str.strip: drop whitespace from both ends. -/
def pyStrip (s : List Char) : List Char :=
  ((s.dropWhile pyIsSpace).reverse.dropWhile pyIsSpace).reverse

/-- src/app/config.py: the CATEGORIES constant, verbatim. -/
def CATEGORIES : List String := [
  "йога",
  "велопокатушка",
  "музыка",
  "калимба",
  "гитара",
  "балалайка",
  "пение",
  "банджо",
  "пианино",
  "вистл",
  "блокфлейта",
  "скрипка",
  "гиджак",
  "мандолина",
  "бузуки",
  "бас",
  "уд",
  "занятие гитарой",
  "занятие скрипкой",
  "занятие виолончелью",
  "занятие пением",
  "занятие флейтой",
  "занятие арфой",
  "занятие басом",
  "занятие теорией музыки",
  "быт",
  "побрился",
  "помылся",
  "уборка",
  "ремонт",
  "утро",
  "утренние процедуры",
  "вечерние процедуры",
  "к выходу готов",
  "медицина",
  "болел",
  "программирование",
  "электроника",
  "config",
  "анализ данных",
  "английский",
  "занятие английским",
  "худ",
  "аниме",
  "манга",
  "фильм",
  "думал",
  "прогулка",
  "гамак",
  "работа",
  "занятие вождением",
  "вождение",
  "кожа",
  "шитьё",
  "велосипед",
  "мастерил",
  "моделирование",
  "знание",
  "tracker",
  "рисование",
  "токарка",
  "поездка в Ташкент",
  "поездка в Грузию",
  "пилатес",
  "бокс",
  "бег",
  "скалодром",
  "функциональный тренинг",
  "миофасциальный релиз",
  "подвесной тренинг",
  "мотопокатушка",
  "стретчинг",
  "бассейн",
  "лыжи",
  "ледовые коньки",
  "роликовые коньки",
  "батуты",
  "картинг",
  "гусли",
  "укулеле",
  "похороны отца",
  "уд155",
  "спал",
  "carving",
  "авиамоделизм",
  "приехал на работу",
  "приехал с работы",
  "сериал"
]

/-- The category labels as character lists. -/
def CATS : List (List Char) := CATEGORIES.map String.data

/-- An entry of ChatData.selected_messages (src/app/models.py):
the message dict built in echo_message. -/
structure MessageData where
  message_id : Nat
  content : List Char
  timestamp : List Char
  deriving DecidableEq, Repr

/-- An entry of ChatData.processed_messages: the dict built in
process_selected_messages (timestamp and content only). -/
structure ProcessedMessage where
  timestamp : List Char
  content : List Char
  deriving DecidableEq, Repr

/-- src/app/models.py ChatData: per-chat state. -/
structure ChatData where
  selected_messages : List MessageData
  processed_messages : List ProcessedMessage
  pinned_message_id : Option Nat
  deriving DecidableEq, Repr

/-- The empty state created by get_chat_data on first touch. -/
def initialChatData : ChatData := ⟨[], [], none⟩

/-- Outcome of the reconciliation query in process_selected_messages:
context.bot.get_chat raised (err), returned a chat with no pinned
message (noPinned), or returned a chat whose pinned message has the
given id (pinned). -/
inductive QueryResult
  | err
  | noPinned
  | pinned (id : Nat)
  deriving DecidableEq, Repr

/-- Environment of one operation: outcomes of the external Telegram
calls (query result, edit success, id of a newly created pinned
message if send+pin succeed, unpin success) and the two timestamp
sources (message-date local time when the timezone conversion
succeeds, datetime.now otherwise / for invalid overrides). -/
structure Env where
  query : QueryResult
  editOk : Bool
  createId : Option Nat
  unpinOk : Bool
  dateOk : Bool
  dateTs : List Char
  nowTs : List Char
  deriving DecidableEq, Repr

/-- External Telegram calls attempted by an operation, in order. -/
inductive ExtAction
  | queryPinned
  | editMsg (id : Nat) (text : List Char)
  | sendPin (text : List Char)
  | unpin (id : Nat)
  | deleteMsg (id : Nat)
  deriving DecidableEq, Repr

/-! ## Category matcher (src/app/handlers.py lines 116-135) -/

/-- Descending-length order used by sorted(CATEGORIES, key=len, reverse=True). -/
def lenGe (a b : List Char) : Prop := b.length ≤ a.length

instance : DecidableRel lenGe := fun a b => Nat.decLe b.length a.length

instance : IsTotal (List Char) lenGe :=
  ⟨fun a b => Or.symm (Nat.le_total a.length b.length)⟩

instance : IsTrans (List Char) lenGe :=
  ⟨fun _ _ _ hab hbc => Nat.le_trans hbc hab⟩

/-- The category list sorted by length, descending (the iteration
order of the matching loop in echo_message). -/
def sortedCats : List (List Char) := List.insertionSort lenGe CATS

/-- One iteration of the matching loop: content.lower().startswith
of cat.lower(), and the boundary check (end of string or a space at
position len(cat)). -/
def categoryMatches (content cat : List Char) : Bool :=
  decide (pyLower cat <+: pyLower content) &&
  (content.length == cat.length || content[cat.length]? == some ' ')

/-- The matching loop with break: first category, in descending
length order, that matches. -/
def findCategory (content : List Char) : Option (List Char) :=
  sortedCats.find? (fun cat => categoryMatches content cat)

/-- Category formatting in echo_message: wrap the matched label as
written in the input, with the trimmed remainder in parentheses. -/
def applyCategory (content : List Char) : List Char :=
  if CATS = [] ∨ content = [] then content
  else
    match findCategory content with
    | some cat =>
      let matched := content.take cat.length
      let rest := pyStrip (content.drop cat.length)
      if rest = [] then '=' :: (matched ++ ['='])
      else '=' :: (matched ++ ('=' :: ' ' :: '(' :: (rest ++ [')'])))
    | none => content

/-! ## Time override (src/app/handlers.py lines 82-95),
modelling the regex match of r"^\.(\d{1,2})\.(\d{2})(?:\s+|$)". -/

/-- Numeric value of an ASCII digit. -/
def digVal (c : Char) : Nat := c.toNat - 48

/-- Match the tail \.(\d{2})(?:\s+|$) of the time regex, returning
the minutes and the text after the match end (the \s+ alternative is
greedy, so the match end is past the whitespace run). -/
def timeTail (l : List Char) : Option (Nat × List Char) :=
  match l with
  | '.' :: m1 :: m2 :: rest =>
    if m1.isDigit && m2.isDigit then
      match rest with
      | [] => some (10 * digVal m1 + digVal m2, [])
      | c :: _ =>
        if pyIsSpace c then some (10 * digVal m1 + digVal m2, rest.dropWhile pyIsSpace)
        else none
    else none
  | _ => none

/-- Match the whole time regex against the raw text.  The greedy
group (\d{1,2}) tries two digits first and backtracks to one digit,
exactly like the Python regex engine. -/
def timeOverride (text : List Char) : Option (Nat × Nat × List Char) :=
  match text with
  | '.' :: c1 :: rest =>
    if c1.isDigit then
      match rest with
      | c2 :: rest2 =>
        if c2.isDigit then
          match timeTail rest2 with
          | some (m, after) => some (10 * digVal c1 + digVal c2, m, after)
          | none =>
            match timeTail rest with
            | some (m, after) => some (digVal c1, m, after)
            | none => none
        else
          match timeTail rest with
          | some (m, after) => some (digVal c1, m, after)
          | none => none
      | [] => none
    else none
  | _ => none

/-- f-string zero-padded two-digit rendering (values stay below 100
because they come from at most two digits). -/
def pad2 (n : Nat) : List Char := [Nat.digitChar (n / 10), Nat.digitChar (n % 10)]

/-- Lowercase an uppercase first letter (echo_message lines 112-114). -/
def normalizeFirst (l : List Char) : List Char :=
  match l with
  | [] => []
  | c :: rest => if pyIsUpper c then pyLowerChar c :: rest else c :: rest

/-- Build the message dict stored by echo_message for a non-command
entry: timestamp from the time override when present and valid,
otherwise from the message date (or now if the timezone conversion
failed); content is stripped, first-letter-normalized and
category-formatted. -/
def computeEntry (msgId : Nat) (text : List Char) (env : Env) : MessageData :=
  let tsContent : List Char × List Char :=
    match timeOverride text with
    | some (h, m, after) =>
      if h ≤ 23 ∧ m ≤ 59 then (pad2 h ++ '.' :: pad2 m, pyStrip after)
      else (env.nowTs, pyStrip (text.drop 1))
    | none =>
      ((if env.dateOk then env.dateTs else env.nowTs), pyStrip (text.drop 1))
  ⟨msgId, applyCategory (normalizeFirst tsContent.2), tsContent.1⟩

/-! ## Merge engine (src/app/services.py) -/

/-- Extract the category of an entry text: the text between the
leading = and the next = (services.py lines 100-109); none when the
text is not of that wrapper form. -/
def extractCategory (content : List Char) : Option (List Char) :=
  match content with
  | '=' :: rest =>
    if rest.contains '=' then some (rest.takeWhile (fun c => c ≠ '=')) else none
  | _ => none

/-- Both texts carry a category and the categories agree after
str.lower (services.py line 112). -/
def sameCategory (lastC newC : List Char) : Bool :=
  match extractCategory lastC, extractCategory newC with
  | some a, some b => decide (pyLower a = pyLower b)
  | _, _ => false

/-- One iteration of the merge loop: replace the last committed
entry when it has the same category as the new one, else append. -/
def mergeEntry (ps : List ProcessedMessage) (m : ProcessedMessage) : List ProcessedMessage :=
  match ps.getLast? with
  | some last =>
    if sameCategory last.content m.content then ps.dropLast ++ [m] else ps ++ [m]
  | none => [m]

/-- The whole merge loop over the selected messages, in order. -/
def mergeAll (ps : List ProcessedMessage) (pending : List MessageData) : List ProcessedMessage :=
  pending.foldl (fun acc md => mergeEntry acc ⟨md.timestamp, md.content⟩) ps

/-- One summary line: f-string "timestamp content". -/
def renderLine (m : ProcessedMessage) : List Char := m.timestamp ++ ' ' :: m.content

/-- The summary text: lines joined by newline. -/
def renderSummary (l : List ProcessedMessage) : List Char :=
  List.intercalate ['\n'] (l.map renderLine)

/-- Reconciliation step of process_selected_messages (lines 72-87):
when a pinned message id is recorded, query the chat; if the query
raises or reports no pinned message, clear processed messages and
the pinned id.  A pinned message with a different id is NOT compared
against the recorded id and leaves the state untouched. -/
def reconcileStep (d : ChatData) (q : QueryResult) : ChatData × List ExtAction :=
  match d.pinned_message_id with
  | none => (d, [])
  | some _ =>
    match q with
    | QueryResult.pinned _ => (d, [ExtAction.queryPinned])
    | _ =>
      ({ d with processed_messages := [], pinned_message_id := none },
       [ExtAction.queryPinned])

/-- Update-or-create of the pinned summary (services.py lines
127-135 and create_new_pinned_message): edit in place when an id is
recorded and the edit succeeds; otherwise send+pin a new message and
record its id when that succeeds. -/
def pushSummary (d : ChatData) (env : Env) (summary : List Char) :
    ChatData × List ExtAction :=
  match d.pinned_message_id with
  | some pid =>
    if env.editOk then (d, [ExtAction.editMsg pid summary])
    else
      match env.createId with
      | some nid =>
        ({ d with pinned_message_id := some nid },
         [ExtAction.editMsg pid summary, ExtAction.sendPin summary])
      | none => (d, [ExtAction.editMsg pid summary, ExtAction.sendPin summary])
  | none =>
    match env.createId with
    | some nid => ({ d with pinned_message_id := some nid }, [ExtAction.sendPin summary])
    | none => (d, [ExtAction.sendPin summary])

/-- process_selected_messages: no-op on empty selected list, else
reconcile, merge every selected entry into processed, render and
push the summary, delete the source messages and clear selected. -/
def flush (d : ChatData) (env : Env) : ChatData × List ExtAction :=
  if d.selected_messages = [] then (d, [])
  else
    let r := reconcileStep d env.query
    let merged := mergeAll r.1.processed_messages d.selected_messages
    let d2 : ChatData := { r.1 with processed_messages := merged }
    if merged = [] then (d2, r.2)
    else
      let p := pushSummary d2 env (renderSummary merged)
      ({ p.1 with selected_messages := [] },
       r.2 ++ p.2 ++ d.selected_messages.map (fun md => ExtAction.deleteMsg md.message_id))

/-- remove_last_message (src/app/handlers.py lines 149-187): pop the
last processed message; re-render and push when entries remain,
otherwise unpin and delete the pinned message (clearing the recorded
id only when the unpin call does not raise). -/
def remove_last (d : ChatData) (env : Env) : ChatData × List ExtAction :=
  if d.processed_messages = [] then (d, [])
  else
    let d1 : ChatData := { d with processed_messages := d.processed_messages.dropLast }
    if d1.processed_messages = [] then
      match d1.pinned_message_id with
      | some pid =>
        if env.unpinOk then
          ({ d1 with pinned_message_id := none },
           [ExtAction.unpin pid, ExtAction.deleteMsg pid])
        else (d1, [ExtAction.unpin pid])
      | none => (d1, [])
    else pushSummary d1 env (renderSummary d1.processed_messages)

/-- clear_chat_data (src/app/services.py lines 156-183): clear
selected and processed, then try to unpin+delete the pinned message;
the recorded id is cleared (and counted as cleared) only when the
unpin call does not raise. -/
def clear_chat_data (d : ChatData) (unpinOk : Bool) : ChatData × Bool :=
  let c12 := !d.selected_messages.isEmpty || !d.processed_messages.isEmpty
  let d1 : ChatData := { d with selected_messages := [], processed_messages := [] }
  match d.pinned_message_id with
  | some _ =>
    if unpinOk then ({ d1 with pinned_message_id := none }, true)
    else (d1, c12)
  | none => (d1, c12)

/-- echo_message (src/app/handlers.py lines 62-146): ignore text not
starting with the dot marker; treat ".-" as the remove-last command
(also deleting the command message); otherwise build the entry,
append it to selected_messages and schedule a delayed flush.  The
returned Bool says whether a flush was scheduled. -/
def echo_message (d : ChatData) (msgId : Nat) (text : List Char) (env : Env) :
    ChatData × Bool × List ExtAction :=
  if text.head? = some '.' then
    if text = ['.', '-'] then
      let r := remove_last d env
      (r.1, false, r.2 ++ [ExtAction.deleteMsg msgId])
    else
      ({ d with selected_messages := d.selected_messages ++ [computeEntry msgId text env] },
       true, [])
  else (d, false, [])

/-! ## Reachable states -/

/-- The operations that mutate a ChatData, with the environments of
their external calls. -/
inductive Op
  | intake (msgId : Nat) (text : List Char) (env : Env)
  | flushOp (env : Env)
  | removeOp (env : Env)
  | resetOp (unpinOk : Bool)

/-- Apply one operation to a state (projecting away flags/traces). -/
def applyOp (d : ChatData) : Op → ChatData
  | Op.intake msgId text env => (echo_message d msgId text env).1
  | Op.flushOp env => (flush d env).1
  | Op.removeOp env => (remove_last d env).1
  | Op.resetOp ok => (clear_chat_data d ok).1

/-- Run a sequence of operations from the empty state. -/
def runOps (ops : List Op) : ChatData := ops.foldl applyOp initialChatData

/-- Adjacent committed entries never share a category (the central
invariant of the merge engine). -/
def noAdjDup (l : List ProcessedMessage) : Prop :=
  List.Chain' (fun a b => sameCategory a.content b.content = false) l

/-! ## Helper lemmas -/

theorem sameCategory_false_of_ne {x last new : List Char}
    (h1 : sameCategory x last = false) (h2 : sameCategory last new = true) :
    sameCategory x new = false := by
  unfold sameCategory at h1 h2 ⊢
  cases hx : extractCategory x <;> cases hl : extractCategory last <;>
      cases hn : extractCategory new <;>
    simp only [hx, hl, hn] at h1 h2 ⊢ <;>
    simp_all

theorem noAdjDup_mergeEntry {ps : List ProcessedMessage} (m : ProcessedMessage)
    (h : noAdjDup ps) : noAdjDup (mergeEntry ps m) := by
  induction ps using List.reverseRecOn with
  | nil => simp [mergeEntry, noAdjDup]
  | append_singleton as a _ih =>
    unfold mergeEntry
    rw [List.getLast?_concat]
    show noAdjDup
      (if sameCategory a.content m.content = true then (as ++ [a]).dropLast ++ [m]
       else as ++ [a] ++ [m])
    by_cases hs : sameCategory a.content m.content = true
    · rw [if_pos hs, List.dropLast_concat]
      unfold noAdjDup at h ⊢
      rw [List.chain'_append] at h ⊢
      obtain ⟨h1, _, h3⟩ := h
      refine ⟨h1, List.chain'_singleton _, ?_⟩
      intro x hx y hy
      simp only [List.head?_cons, Option.mem_def, Option.some.injEq] at hy
      subst hy
      exact sameCategory_false_of_ne (h3 x hx a (by simp)) hs
    · rw [if_neg hs]
      unfold noAdjDup at h ⊢
      rw [List.chain'_append]
      refine ⟨h, List.chain'_singleton _, ?_⟩
      intro x hx y hy
      rw [List.getLast?_concat] at hx
      simp only [Option.mem_def, Option.some.injEq] at hx
      simp only [List.head?_cons, Option.mem_def, Option.some.injEq] at hy
      subst hx; subst hy
      exact Bool.eq_false_iff.mpr fun hc => hs hc

theorem noAdjDup_mergeAll (pending : List MessageData) :
    ∀ ps, noAdjDup ps → noAdjDup (mergeAll ps pending) := by
  induction pending with
  | nil => intro ps h; exact h
  | cons p rest ih =>
    intro ps h
    show noAdjDup (List.foldl _ (mergeEntry ps ⟨p.timestamp, p.content⟩) rest)
    exact ih _ (noAdjDup_mergeEntry _ h)

theorem pushSummary_lists (d : ChatData) (env : Env) (s : List Char) :
    (pushSummary d env s).1.processed_messages = d.processed_messages ∧
    (pushSummary d env s).1.selected_messages = d.selected_messages := by
  unfold pushSummary
  cases hp : d.pinned_message_id <;> cases hc : env.createId <;>
    cases he : env.editOk <;> simp

theorem remove_last_lists (d : ChatData) (env : Env) :
    (remove_last d env).1.processed_messages = d.processed_messages.dropLast ∧
    (remove_last d env).1.selected_messages = d.selected_messages := by
  unfold remove_last
  by_cases h0 : d.processed_messages = []
  · simp [h0]
  · rw [if_neg h0]
    by_cases h1 : d.processed_messages.dropLast = []
    · simp only [h1, if_pos rfl]
      cases hp : d.pinned_message_id <;> cases hu : env.unpinOk <;> simp [h1]
    · rw [if_neg h1]
      exact ⟨(pushSummary_lists _ _ _).1, (pushSummary_lists _ _ _).2⟩

theorem reconcileStep_processed (d : ChatData) (q : QueryResult) :
    (reconcileStep d q).1.processed_messages = d.processed_messages ∨
    (reconcileStep d q).1.processed_messages = [] := by
  unfold reconcileStep
  cases hp : d.pinned_message_id <;> cases q <;> simp

theorem flush_processed_eq (d : ChatData) (env : Env)
    (h : d.selected_messages ≠ []) :
    (flush d env).1.processed_messages =
      mergeAll (reconcileStep d env.query).1.processed_messages d.selected_messages := by
  simp only [flush, if_neg h]
  by_cases hme : mergeAll (reconcileStep d env.query).1.processed_messages
      d.selected_messages = []
  · rw [if_pos hme]
  · rw [if_neg hme]
    exact (pushSummary_lists _ _ _).1

theorem clear_chat_data_lists (d : ChatData) (ok : Bool) :
    (clear_chat_data d ok).1.selected_messages = [] ∧
    (clear_chat_data d ok).1.processed_messages = [] := by
  unfold clear_chat_data
  cases hp : d.pinned_message_id <;> cases ok <;> simp

theorem echo_message_processed (d : ChatData) (msgId : Nat) (text : List Char)
    (env : Env) :
    (echo_message d msgId text env).1.processed_messages = d.processed_messages ∨
    (echo_message d msgId text env).1.processed_messages =
      d.processed_messages.dropLast := by
  unfold echo_message
  by_cases h1 : text.head? = some '.'
  · rw [if_pos h1]
    by_cases h2 : text = ['.', '-']
    · rw [if_pos h2]
      exact Or.inr (remove_last_lists d env).1
    · rw [if_neg h2]
      exact Or.inl rfl
  · rw [if_neg h1]
    exact Or.inl rfl

theorem noAdjDup_applyOp (d : ChatData) (op : Op)
    (h : noAdjDup d.processed_messages) : noAdjDup (applyOp d op).processed_messages := by
  cases op with
  | intake msgId text env =>
    rcases echo_message_processed d msgId text env with he | he
    · rw [applyOp, he]; exact h
    · rw [applyOp, he]; exact h.init
  | flushOp env =>
    show noAdjDup (flush d env).1.processed_messages
    by_cases hs : d.selected_messages = []
    · simp only [flush, if_pos hs]; exact h
    · rw [flush_processed_eq d env hs]
      rcases reconcileStep_processed d env.query with hr | hr <;> rw [hr] at * <;>
        [exact noAdjDup_mergeAll _ _ (hr ▸ h); exact noAdjDup_mergeAll _ _ (by simp [noAdjDup])]
  | removeOp env =>
    show noAdjDup (remove_last d env).1.processed_messages
    rw [(remove_last_lists d env).1]
    exact h.init
  | resetOp ok =>
    show noAdjDup (clear_chat_data d ok).1.processed_messages
    rw [(clear_chat_data_lists d ok).2]
    simp [noAdjDup]

theorem noAdjDup_foldl (ops : List Op) :
    ∀ d, noAdjDup d.processed_messages →
      noAdjDup (List.foldl applyOp d ops).processed_messages := by
  induction ops with
  | nil => intro d h; exact h
  | cons op rest ih =>
    intro d h
    exact ih _ (noAdjDup_applyOp d op h)

/-- find? over a descending-length sorted list: any satisfying member
is dominated in length by the found element. -/
theorem find?_sorted_longest {p : List Char → Bool} {l : List (List Char)}
    (hs : List.Sorted lenGe l) {cat : List Char} (hmem : cat ∈ l) (hp : p cat = true) :
    ∃ c, l.find? p = some c ∧ p c = true ∧ cat.length ≤ c.length := by
  induction l with
  | nil => cases hmem
  | cons x xs ih =>
    rw [List.sorted_cons] at hs
    by_cases hx : p x = true
    · refine ⟨x, List.find?_cons_of_pos xs hx, hx, ?_⟩
      rcases List.mem_cons.mp hmem with rfl | hm
      · exact Nat.le_refl _
      · exact hs.1 cat hm
    · have hcx : cat ≠ x := fun he => hx (he ▸ hp)
      have hm : cat ∈ xs := (List.mem_cons.mp hmem).resolve_left hcx
      obtain ⟨c, hfind, hpc, hlen⟩ := ih hs.2 hm
      exact ⟨c, by rw [List.find?_cons_of_neg xs (by simp [hx]), hfind], hpc, hlen⟩

/-! ## Claim theorems -/

/-- Claim C4: every state reachable from the empty state by any
sequence of intake, flush, remove-last and reset operations has no
two adjacent committed entries carrying the same category label
(case-insensitive, parsed from the =Label= wrapper form). -/
theorem committed_no_adjacent_same_category (ops : List Op) :
    noAdjDup (runOps ops).processed_messages :=
  noAdjDup_foldl ops initialChatData (by simp [noAdjDup, initialChatData])

/-- Claim C5: flushing a state with an empty pending sequence leaves
the state completely unchanged and attempts no external call at all
(in particular none that could mutate the pinned artifact). -/
theorem flush_empty_pending_noop (d : ChatData) (env : Env)
    (h : d.selected_messages = []) : flush d env = (d, []) := by
  simp [flush, h]

theorem flush_empty_pending_noop_witness :
    flush ⟨[], [⟨('1' :: ['2']), ('=' :: 'a' :: ['='])⟩], some 3⟩
        ⟨QueryResult.noPinned, false, some 9, true, true, [], []⟩ =
      (⟨[], [⟨('1' :: ['2']), ('=' :: 'a' :: ['='])⟩], some 3⟩, []) :=
  flush_empty_pending_noop _ _ rfl

/-- Claim C9: a text message that does not start with the dot marker
is ignored: the state is unchanged, no flush is scheduled and no
external call is made. -/
theorem non_marker_message_ignored (d : ChatData) (msgId : Nat) (text : List Char)
    (env : Env) (h : text.head? ≠ some '.') :
    echo_message d msgId text env = (d, false, []) := by
  simp [echo_message, h]

theorem non_marker_message_ignored_witness :
    echo_message initialChatData 7 ('h' :: ['i'])
        ⟨QueryResult.err, true, none, true, true, [], []⟩ =
      (initialChatData, false, []) :=
  non_marker_message_ignored _ _ _ _ (by decide)

/-- Claim C6 counterexample: with an artifact id recorded, empty
pending and committed, and a failing external unpin call, reset
leaves the artifact id in place and returns false, although the
claim requires the id to be cleared and the return value to be true. -/
theorem reset_unpin_failure_keeps_artifact :
    clear_chat_data ⟨[], [], some 5⟩ false = (⟨[], [], some 5⟩, false) := by decide

/-- Claim C6 (amended): reset always clears pending and committed;
the artifact id is cleared only when the external unpin call does
not raise; the returned flag is true iff pending or committed was
non-empty, or the artifact id was present and the unpin succeeded. -/
theorem reset_clears_lists_reports_cleared (d : ChatData) (ok : Bool) :
    (clear_chat_data d ok).1.selected_messages = [] ∧
    (clear_chat_data d ok).1.processed_messages = [] ∧
    ((clear_chat_data d ok).1.pinned_message_id =
      if d.pinned_message_id.isSome && !ok then d.pinned_message_id else none) ∧
    ((clear_chat_data d ok).2 =
      (!d.selected_messages.isEmpty || !d.processed_messages.isEmpty ||
        (d.pinned_message_id.isSome && ok))) := by
  unfold clear_chat_data
  cases hp : d.pinned_message_id <;> cases ok <;> simp [hp]

/-- Claim C10: a ".-" message is treated as the remove-last command:
nothing is appended to pending, no flush is scheduled, the last
committed entry is popped, the only extra external call is the
deletion of the command message itself, and with an already empty
committed list the state is left entirely unchanged with no external
call from remove-last. -/
theorem dot_dash_is_remove_last_command (d : ChatData) (msgId : Nat) (env : Env) :
    (echo_message d msgId ('.' :: ['-']) env).1.selected_messages =
      d.selected_messages ∧
    (echo_message d msgId ('.' :: ['-']) env).2.1 = false ∧
    (echo_message d msgId ('.' :: ['-']) env).1.processed_messages =
      d.processed_messages.dropLast ∧
    (echo_message d msgId ('.' :: ['-']) env).2.2 =
      (remove_last d env).2 ++ [ExtAction.deleteMsg msgId] ∧
    (d.processed_messages = [] →
      (echo_message d msgId ('.' :: ['-']) env).1 = d ∧
      (remove_last d env).2 = []) := by
  have he : echo_message d msgId ('.' :: ['-']) env =
      ((remove_last d env).1, false,
       (remove_last d env).2 ++ [ExtAction.deleteMsg msgId]) := by
    simp [echo_message]
  rw [he]
  refine ⟨(remove_last_lists d env).2, rfl, (remove_last_lists d env).1, rfl, ?_⟩
  intro h0
  have hr : remove_last d env = (d, []) := by simp [remove_last, h0]
  rw [hr]
  exact ⟨rfl, rfl⟩

theorem dot_dash_is_remove_last_command_witness :
    (echo_message initialChatData 4 ('.' :: ['-'])
        ⟨QueryResult.err, false, none, false, false, [], []⟩).1 = initialChatData ∧
    (remove_last initialChatData
        ⟨QueryResult.err, false, none, false, false, [], []⟩).2 = [] :=
  (dot_dash_is_remove_last_command initialChatData 4
    ⟨QueryResult.err, false, none, false, false, [], []⟩).2.2.2.2 rfl

/-- Claim C3 counterexample: the recorded artifact id is 1, the
external query reports a pinned message with the different id 2, yet
flush does NOT clear committed or the artifact id before merging:
the previously committed entry is still there and the id is still 1. -/
theorem flush_keeps_state_on_mismatched_pin_id :
    (⟨[⟨11, ('=' :: 'b' :: ['=']), ('1' :: ['1'])⟩],
      [⟨('1' :: ['0']), ('=' :: 'a' :: ['='])⟩], some 1⟩ : ChatData).pinned_message_id
      = some 1 ∧
    (flush ⟨[⟨11, ('=' :: 'b' :: ['=']), ('1' :: ['1'])⟩],
        [⟨('1' :: ['0']), ('=' :: 'a' :: ['='])⟩], some 1⟩
      ⟨QueryResult.pinned 2, true, none, true, true, [], []⟩).1.processed_messages =
      [⟨('1' :: ['0']), ('=' :: 'a' :: ['='])⟩,
       ⟨('1' :: ['1']), ('=' :: 'b' :: ['='])⟩] ∧
    (flush ⟨[⟨11, ('=' :: 'b' :: ['=']), ('1' :: ['1'])⟩],
        [⟨('1' :: ['0']), ('=' :: 'a' :: ['='])⟩], some 1⟩
      ⟨QueryResult.pinned 2, true, none, true, true, [], []⟩).1.pinned_message_id =
      some 1 :=
  ⟨rfl, by decide, by decide⟩

/-- Claim C3 (amended): at flush time with pending non-empty, the
pending entries are merged into the committed list produced by the
reconciliation step; that step clears committed and the artifact id
exactly when an id is recorded and the query reports no pinned
message or fails, and leaves the state untouched when the query
reports any pinned message id (even one different from the recorded
id) or when no id is recorded. -/
theorem reconciliation_clears_only_when_absent (d : ChatData) (env : Env)
    (h : d.selected_messages ≠ []) :
    (flush d env).1.processed_messages =
      mergeAll (reconcileStep d env.query).1.processed_messages d.selected_messages ∧
    (∀ a, d.pinned_message_id = some a →
      ((env.query = QueryResult.noPinned ∨ env.query = QueryResult.err) →
        (reconcileStep d env.query).1.processed_messages = [] ∧
        (reconcileStep d env.query).1.pinned_message_id = none) ∧
      (∀ i, env.query = QueryResult.pinned i → (reconcileStep d env.query).1 = d)) ∧
    (d.pinned_message_id = none → (reconcileStep d env.query).1 = d) := by
  refine ⟨flush_processed_eq d env h, ?_, ?_⟩
  · intro a ha
    constructor
    · intro hq
      rcases hq with hq | hq <;> simp [reconcileStep, ha, hq]
    · intro i hq
      simp [reconcileStep, ha, hq]
  · intro ha
    simp [reconcileStep, ha]

theorem reconciliation_clears_only_when_absent_witness :
    (reconcileStep ⟨[⟨5, ['x'], ['9']⟩], [⟨['9'], ['x']⟩], some 3⟩
        QueryResult.noPinned).1.processed_messages = [] ∧
    (reconcileStep ⟨[⟨5, ['x'], ['9']⟩], [⟨['9'], ['x']⟩], some 3⟩
        QueryResult.noPinned).1.pinned_message_id = none :=
  ((reconciliation_clears_only_when_absent
      ⟨[⟨5, ['x'], ['9']⟩], [⟨['9'], ['x']⟩], some 3⟩
      ⟨QueryResult.noPinned, true, none, true, true, [], []⟩
      (by decide)).2.1 3 rfl).1 (Or.inl rfl)

/-- Claim C1: one step of the merge loop.  When the last committed
entry and the new entry both carry a category and the two labels are
equal after str.lower, the new entry replaces the last committed one
(same committed length); when the labels differ, or either side has
no category wrapper, the new entry is appended. -/
theorem merge_step_collapse_or_append (ps : List ProcessedMessage)
    (last m : ProcessedMessage) :
    (∀ a b, extractCategory last.content = some a →
      extractCategory m.content = some b → pyLower a = pyLower b →
      mergeEntry (ps ++ [last]) m = ps ++ [m] ∧
        (ps ++ [m]).length = (ps ++ [last]).length) ∧
    (∀ a b, extractCategory last.content = some a →
      extractCategory m.content = some b → pyLower a ≠ pyLower b →
      mergeEntry (ps ++ [last]) m = ps ++ [last] ++ [m]) ∧
    ((extractCategory last.content = none ∨ extractCategory m.content = none) →
      mergeEntry (ps ++ [last]) m = ps ++ [last] ++ [m]) := by
  have hme : mergeEntry (ps ++ [last]) m =
      if sameCategory last.content m.content = true then ps ++ [m]
      else ps ++ [last] ++ [m] := by
    unfold mergeEntry
    rw [List.getLast?_concat]
    show (if sameCategory last.content m.content = true
          then (ps ++ [last]).dropLast ++ [m] else ps ++ [last] ++ [m]) = _
    rw [List.dropLast_concat]
  refine ⟨?_, ?_, ?_⟩
  · intro a b ha hb hab
    have hsc : sameCategory last.content m.content = true := by
      unfold sameCategory
      rw [ha, hb]
      simp [hab]
    rw [hme, if_pos hsc]
    simp
  · intro a b ha hb hab
    have hsc : sameCategory last.content m.content = false := by
      unfold sameCategory
      rw [ha, hb]
      simp [hab]
    rw [hme, if_neg (by simp [hsc])]
  · intro hnone
    have hsc : sameCategory last.content m.content = false := by
      unfold sameCategory
      rcases hnone with hn | hn
      · rw [hn]
      · rw [hn]
        cases extractCategory last.content <;> rfl
    rw [hme, if_neg (by simp [hsc])]

theorem merge_step_collapse_or_append_witness :
    mergeEntry [⟨['9'], ('=' :: 'a' :: ['='])⟩]
        ⟨['8'], ('=' :: 'A' :: '=' :: ' ' :: '(' :: 'x' :: [')'])⟩ =
      [⟨['8'], ('=' :: 'A' :: '=' :: ' ' :: '(' :: 'x' :: [')'])⟩] := by
  have h := (merge_step_collapse_or_append [] ⟨['9'], ('=' :: 'a' :: ['='])⟩
      ⟨['8'], ('=' :: 'A' :: '=' :: ' ' :: '(' :: 'x' :: [')'])⟩).1
      ['a'] ['A'] (by decide) (by decide) (by decide)
  simpa using h.1

/-- Claim C2: whenever a configured label matches the text as a
case-insensitive prefix with a valid boundary, the matcher returns a
matching label of maximal length; in particular the input starting
with уд155 is categorized as уд155, not уд. -/
theorem matcher_picks_longest_label :
    (∀ content cat, cat ∈ CATS → categoryMatches content cat = true →
      ∃ c, findCategory content = some c ∧ c ∈ CATS ∧
        categoryMatches content c = true ∧ cat.length ≤ c.length) ∧
    findCategory ("уд155 подробности").data = some ("уд155").data := by
  constructor
  · intro content cat hmem hmatch
    have hsorted : List.Sorted lenGe sortedCats :=
      List.sorted_insertionSort lenGe CATS
    have hmem2 : cat ∈ sortedCats := by
      unfold sortedCats
      rw [List.mem_insertionSort]
      exact hmem
    obtain ⟨c, hfind, hpc, hlen⟩ := find?_sorted_longest hsorted hmem2 hmatch
    refine ⟨c, hfind, ?_, hpc, hlen⟩
    have hc : c ∈ sortedCats := List.mem_of_find?_eq_some hfind
    unfold sortedCats at hc
    rw [List.mem_insertionSort] at hc
    exact hc
  · decide

theorem matcher_picks_longest_label_witness :
    ∃ c, findCategory ("уд155 подробности").data = some c ∧ c ∈ CATS ∧
      categoryMatches ("уд155 подробности").data c = true ∧
      ("уд155").data.length ≤ c.length :=
  matcher_picks_longest_label.1 ("уд155 подробности").data ("уд155").data
    (by decide) (by decide)

/-- Claim C7 counterexample: уд is a known label and the input
begins with уд followed by a whitespace character (a tab), yet the
code leaves the text unchanged instead of producing the wrapped form
required by the claim, because the boundary check accepts only a
space. -/
theorem category_boundary_is_space_not_whitespace :
    ("уд").data ∈ CATS ∧ pyIsSpace '\t' = true ∧
    applyCategory ('у' :: 'д' :: '\t' :: ['x']) = ('у' :: 'д' :: '\t' :: ['x']) ∧
    ('у' :: 'д' :: '\t' :: ['x']) ≠
      ('=' :: 'у' :: 'д' :: '=' :: ' ' :: '(' :: 'x' :: [')']) :=
  ⟨by decide, by decide, by decide, by decide⟩

/-- Claim C7 (amended): with the boundary being end-of-string or a
space character (not arbitrary whitespace), the stored text is the
label as written wrapped in = signs, with the trimmed remainder in
parentheses when non-empty; when no label matches under that
boundary the normalized input is stored unchanged. -/
theorem category_formatting_amended (content : List Char) (hne : content ≠ []) :
    (findCategory content = none →
      (∀ c ∈ CATS, categoryMatches content c = false) ∧
      applyCategory content = content) ∧
    (∀ c, findCategory content = some c →
      c ∈ CATS ∧ categoryMatches content c = true ∧
      applyCategory content =
        (if pyStrip (content.drop c.length) = []
         then '=' :: (content.take c.length ++ ['='])
         else '=' :: (content.take c.length ++
            ('=' :: ' ' :: '(' :: (pyStrip (content.drop c.length) ++ [')']))))) := by
  have hguard : ¬(CATS = [] ∨ content = []) := by
    rintro (hc | hc)
    · exact absurd hc (by decide)
    · exact hne hc
  constructor
  · intro hf
    constructor
    · intro c hc
      unfold findCategory at hf
      have hmem : c ∈ sortedCats := by
        unfold sortedCats
        rw [List.mem_insertionSort]
        exact hc
      have := List.find?_eq_none.mp hf c hmem
      simpa using this
    · unfold applyCategory
      rw [if_neg hguard, hf]
  · intro c hf
    have hmem : c ∈ CATS := by
      have hc : c ∈ sortedCats := List.mem_of_find?_eq_some hf
      unfold sortedCats at hc
      rw [List.mem_insertionSort] at hc
      exact hc
    refine ⟨hmem, List.find?_some hf, ?_⟩
    unfold applyCategory
    rw [if_neg hguard, hf]

theorem category_formatting_amended_witness :
    ("уд155").data ∈ CATS ∧
    categoryMatches ("уд155 x").data ("уд155").data = true ∧
    applyCategory ("уд155 x").data =
      (if pyStrip (("уд155 x").data.drop ("уд155").data.length) = []
       then '=' :: (("уд155 x").data.take ("уд155").data.length ++ ['='])
       else '=' :: (("уд155 x").data.take ("уд155").data.length ++
          ('=' :: ' ' :: '(' ::
            (pyStrip (("уд155 x").data.drop ("уд155").data.length) ++ [')'])))) :=
  (category_formatting_amended ("уд155 x").data (by decide)).2
    ("уд155").data (by decide)

/-- Claim C8: a raw text matching the time-override regex with hours
at most 23 and minutes at most 59 stores the override rendered
zero-padded as HH.MM and the content is what remains after the
prefix; an out-of-range hour or minute falls back to the default
timestamp (datetime.now) with only the dot marker stripped; the
entry built this way is what echo_message appends to pending. -/
theorem time_override_behavior (msgId : Nat) (text : List Char) (env : Env)
    (h m : Nat) (after : List Char)
    (hm : timeOverride text = some (h, m, after)) :
    ((h ≤ 23 ∧ m ≤ 59) →
      computeEntry msgId text env =
        ⟨msgId, applyCategory (normalizeFirst (pyStrip after)),
          pad2 h ++ '.' :: pad2 m⟩) ∧
    (¬(h ≤ 23 ∧ m ≤ 59) →
      computeEntry msgId text env =
        ⟨msgId, applyCategory (normalizeFirst (pyStrip (text.drop 1))),
          env.nowTs⟩) ∧
    (∀ dd : ChatData, text.head? = some '.' → text ≠ ['.', '-'] →
      (echo_message dd msgId text env).1.selected_messages =
        dd.selected_messages ++ [computeEntry msgId text env]) := by
  refine ⟨?_, ?_, ?_⟩
  · intro hv
    unfold computeEntry
    rw [hm]
    dsimp only
    rw [if_pos hv]
  · intro hv
    unfold computeEntry
    rw [hm]
    dsimp only
    rw [if_neg hv]
  · intro dd hh hd
    simp [echo_message, hh, hd]

theorem time_override_behavior_witness :
    computeEntry 3 ('.' :: '5' :: '.' :: '0' :: '7' :: ' ' :: ['a'])
        ⟨QueryResult.err, true, none, true, true, ['9'], ['8']⟩ =
      ⟨3, applyCategory (normalizeFirst (pyStrip ['a'])), pad2 5 ++ '.' :: pad2 7⟩ :=
  (time_override_behavior 3 ('.' :: '5' :: '.' :: '0' :: '7' :: ' ' :: ['a'])
      ⟨QueryResult.err, true, none, true, true, ['9'], ['8']⟩ 5 7 ['a']
      (by decide)).1 (by decide)

end MukitBot
